import Mathlib

/-!
Verification of the path-addressed document mutation engine implemented in
src/src/features/modals/NodeModal/index.tsx (the NodeModal component of the
jsoncrack fork).  The TypeScript core is shallowly embedded:

* JavaScript runtime values that can appear in a parsed JSON document are
  the inductive type `JVal`.  JavaScript objects are ordered association
  lists (property insertion order), arrays are lists, and the two
  non-JSON values `undefined` and `NaN` that the code can produce or
  observe are explicit constructors.  Numbers are modelled as integers:
  every numeric literal exercised by the code paths under verification is
  integral, and `Number(text)` is modelled on the decimal-integer fragment
  of its grammar (any other text maps to `NaN`).
* In-place mutation through an alias obtained by indexing (the code's
  `parent = parent[seg]` loop and `setAtPath`) is modelled by functional
  write-back along the traversed path, which coincides with the aliased
  in-place update because parsed JSON documents are trees.
* Thrown `TypeError`s (indexing through `undefined`/`null`, assigning a
  property of a primitive in strict mode) are modelled with `Except`.
* `contentToJson` / `jsonToContent` live outside the verified source; per
  the specification they are external contracts, passed as `parseFn` and
  `printFn` parameters that may fail.
* `JSON.stringify(x, null, 2)` and string conversion via a template
  literal are modelled by `stringifyVal` and `jsTemplate`.  Exotic
  JavaScript property semantics never reachable from the verified code
  paths (prototype properties such as `length`, string code-unit versus
  code-point indexing) are outside the model.
-/

/-- A path segment as stored in `NodeData.path`: a map key or an array index. -/
inductive Seg where
  | key (s : String)
  | idx (n : Nat)
deriving DecidableEq

/-- JavaScript runtime values reachable in the engine: the JSON scalars,
arrays and objects, plus `undefined` and `NaN`. -/
inductive JVal where
  | vstr (s : String)
  | vnum (n : Int)
  | vnan
  | vbool (b : Bool)
  | vnull
  | vundef
  | vobj (members : List (String × JVal))
  | varr (items : List JVal)

/-- Errors that can abort `handleSave`: a thrown `TypeError`, a failure of
one of the external format converters, or `JSON.stringify` producing
`undefined` (unreachable for parse-derived documents). -/
inductive JErr where
  | typeError
  | fmtError (msg : String)
  | stringifyUndef
deriving DecidableEq

/-- One entry of `NodeData.text`: the raw row as produced by the graph,
whose `value` is an arbitrary runtime value. -/
structure NRow where
  key : Option String
  value : JVal
  type : String

/-- One entry of the `fields` react state (named FieldRow to avoid clashing with the algebraic Field class): key, current textual value and
declared value type (the projection built in the `useEffect`). -/
structure FieldRow where
  key : Option String
  value : String
  type : String
deriving DecidableEq

/-- Truthiness of an optional string key: JavaScript `if (x.key)` is true
exactly for a present, non-empty key. -/
def keyTruthy : Option String → Bool
  | some s => s ≠ ""
  | none => false

/-- First-match association-list lookup, i.e. own-property lookup on a
JavaScript object literal (keys of parsed JSON objects are unique). -/
def lookupKey (k : String) : List (String × JVal) → Option JVal
  | [] => none
  | (k', v) :: rest => if k' = k then some v else lookupKey k rest

/-- Property assignment on an object: an existing key keeps its position
(JavaScript preserves property insertion order), a new key is appended. -/
def setKey : List (String × JVal) → String → JVal → List (String × JVal)
  | [], k, v => [(k, v)]
  | (k', v') :: rest, k, v =>
      if k' = k then (k, v) :: rest else (k', v') :: setKey rest k v

/-- Array element assignment `arr[n] = v`; indices past the end extend the
array with holes, which `JSON.stringify` prints as `null` (modelled as
`vundef` padding). -/
def setIdx : List JVal → Nat → JVal → List JVal
  | [], 0, v => [v]
  | [], n + 1, v => JVal.vundef :: setIdx [] n v
  | _ :: xs, 0, v => v :: xs
  | x :: xs, n + 1, v => x :: setIdx xs n v

/-- Digit-string parser: `some` of the value when every character is a
decimal digit, else `none`. -/
def parseDigits (cs : List Char) : Option Nat :=
  match cs with
  | [] => none
  | _ =>
      if cs.all (fun c => c.isDigit)
      then some (cs.foldl (fun a c => a * 10 + (c.toNat - 48)) 0)
      else none

/-- A string that is a canonical array index (the exact decimal rendering
of a natural number): JavaScript treats exactly these object keys as array
indices. -/
def canonIndex (k : String) : Option Nat :=
  match parseDigits k.toList with
  | some n => if toString n = k then some n else none
  | none => none

/-- JavaScript numeric-conversion whitespace. -/
def jsWhitespace (c : Char) : Bool :=
  c = ' ' || c = '\t' || c = '\n' || c = '\r'

/-- Model of JavaScript `Number(text)` on the decimal-integer fragment:
trimmed-empty text is `0`, an optionally signed digit string is its value,
anything else is `NaN` (`none`).  Fractional, exponent and hexadecimal
literal forms are outside the inputs exercised by the verified code. -/
def jsParseNumber (s : String) : Option Int :=
  let t := ((s.toList.dropWhile jsWhitespace).reverse.dropWhile jsWhitespace).reverse
  if t = [] then some 0
  else
    match t with
    | '-' :: rest => (parseDigits rest).map (fun n => -(n : Int))
    | '+' :: rest => (parseDigits rest).map (fun n => (n : Int))
    | cs => (parseDigits cs).map (fun n => (n : Int))

/-- `Number(text)` as a runtime value: a number on success, `NaN` otherwise. -/
def jsNumber (s : String) : JVal :=
  match jsParseNumber s with
  | some n => JVal.vnum n
  | none => JVal.vnan

/-- Property read `v[seg]`: throws `TypeError` on `undefined`/`null`,
returns `undefined` for a missing property, supports array and string
indexing; other primitives have no own properties. -/
def jget (v : JVal) (s : Seg) : Except JErr JVal :=
  match v, s with
  | JVal.vundef, _ => Except.error JErr.typeError
  | JVal.vnull, _ => Except.error JErr.typeError
  | JVal.vobj l, Seg.key k => Except.ok ((lookupKey k l).getD JVal.vundef)
  | JVal.vobj l, Seg.idx n => Except.ok ((lookupKey (toString n) l).getD JVal.vundef)
  | JVal.varr l, Seg.idx n => Except.ok ((l.get? n).getD JVal.vundef)
  | JVal.varr l, Seg.key k =>
      Except.ok (match canonIndex k with
        | some n => (l.get? n).getD JVal.vundef
        | none => JVal.vundef)
  | JVal.vstr str, Seg.idx n =>
      Except.ok (match str.toList.get? n with
        | some c => JVal.vstr (String.mk [c])
        | none => JVal.vundef)
  | JVal.vstr str, Seg.key k =>
      Except.ok (match canonIndex k with
        | some n =>
            match str.toList.get? n with
            | some c => JVal.vstr (String.mk [c])
            | none => JVal.vundef
        | none => JVal.vundef)
  | _, _ => Except.ok JVal.vundef

/-- Property write `v[seg] = newVal`: updates objects and arrays (a
non-index string key on an array sets a property that `JSON.stringify`
ignores, so the JSON-relevant state is unchanged); in strict mode a write
on `undefined`, `null` or a primitive throws `TypeError`. -/
def jset (v : JVal) (s : Seg) (newVal : JVal) : Except JErr JVal :=
  match v, s with
  | JVal.vobj l, Seg.key k => Except.ok (JVal.vobj (setKey l k newVal))
  | JVal.vobj l, Seg.idx n => Except.ok (JVal.vobj (setKey l (toString n) newVal))
  | JVal.varr l, Seg.idx n => Except.ok (JVal.varr (setIdx l n newVal))
  | JVal.varr l, Seg.key k =>
      Except.ok (match canonIndex k with
        | some n => JVal.varr (setIdx l n newVal)
        | none => JVal.varr l)
  | _, _ => Except.error JErr.typeError

/-- Pure variant of `jget` used when a previous successful traversal
guarantees no throw can occur. -/
def jgetP (v : JVal) (s : Seg) : JVal :=
  match jget v s with
  | Except.ok c => c
  | Except.error _ => JVal.vundef

/-- Pure variant of `jset` used when a previous successful traversal
guarantees no throw can occur. -/
def jsetP (v : JVal) (s : Seg) (sub : JVal) : JVal :=
  match jset v s sub with
  | Except.ok r => r
  | Except.error _ => v

/-- The resolution loop of `handleSave` (lines 94 to 97):
`for (const seg of target) parent = parent[seg]` reads every segment in
order, throwing only when it indexes through `undefined` or `null`. -/
def resolveChain (v : JVal) : List Seg → Except JErr JVal
  | [] => Except.ok v
  | s :: rest =>
      match jget v s with
      | Except.ok c => resolveChain c rest
      | Except.error e => Except.error e

/-- Write-back of an aliased in-place mutation: replace the subtree at
`path` (each step re-reads the child that the successful resolution read,
then writes the rebuilt child back). -/
def replaceAt (v : JVal) (path : List Seg) (sub : JVal) : JVal :=
  match path with
  | [] => sub
  | s :: rest => jsetP v s (replaceAt (jgetP v s) rest sub)

/-- The per-row coercion of `handleSave` (lines 101 to 104 and 111 to 114):
start from the raw text, then the three `if` statements on the declared
type. -/
def coerceField (f : FieldRow) : JVal :=
  let v0 : JVal := JVal.vstr f.value
  let v1 : JVal := if f.type = "number" then jsNumber f.value else v0
  let v2 : JVal := if f.type = "boolean" then JVal.vbool (f.value == "true") else v1
  if f.type = "null" then JVal.vnull else v2

/-- One step of the merge loop on an object container (lines 99 to 107):
`if (f.key) parent[f.key] = coerced` — rows whose key is absent or the
empty string (falsy) are skipped. -/
def fieldAssign (l : List (String × JVal)) (f : FieldRow) : List (String × JVal) :=
  match f.key with
  | some k => if k = "" then l else setKey l k (coerceField f)
  | none => l

/-- The whole merge loop over the edited fields on an object container. -/
def mergeFields (l : List (String × JVal)) (fields : List FieldRow) : List (String × JVal) :=
  fields.foldl fieldAssign l

/-- One step of the merge loop when the resolved parent is an array:
`parent[f.key] = v` with a string key assigns an element exactly when the
key is a canonical index; other keys set properties invisible to
`JSON.stringify`. -/
def fieldAssignArr (l : List JVal) (f : FieldRow) : List JVal :=
  match f.key with
  | some k =>
      if k = "" then l
      else
        match canonIndex k with
        | some n => setIdx l n (coerceField f)
        | none => l
  | none => l

/-- The object branch of `handleSave` (lines 90 to 107): resolve every
segment of `target`, then run the merge loop on the resolved parent; the
mutation is visible in the document through the alias, modelled by
`replaceAt` write-back.  If the parent is not a container, the first
assignment (a property write on a primitive or `undefined`) throws; with
no truthy-keyed field the loop performs no write and the document is
untouched. -/
def objectMerge (json : JVal) (target : List Seg) (fields : List FieldRow) :
    Except JErr JVal :=
  match resolveChain json target with
  | Except.error e => Except.error e
  | Except.ok parent =>
      match parent with
      | JVal.vobj l => Except.ok (replaceAt json target (JVal.vobj (mergeFields l fields)))
      | JVal.varr l => Except.ok (replaceAt json target (JVal.varr (fields.foldl fieldAssignArr l)))
      | _ =>
          if fields.any (fun f => keyTruthy f.key) then Except.error JErr.typeError
          else Except.ok json

/-- The loop body of `setAtPath` (lines 71 to 77) on a non-empty path:
all but the last segment descend, materialising a fresh `[]` or
a fresh object when the read yields `undefined` (the fresh container kind
is chosen by the type of the next segment); the last segment is assigned.
Mutation through the alias `cur` is modelled by write-back. -/
def setAtPathGo : JVal → List Seg → JVal → Except JErr JVal
  | cur, [last], value => jset cur last value
  | cur, seg :: rest, value =>
      (match jget cur seg with
       | Except.error e => Except.error e
       | Except.ok c =>
          match c with
          | JVal.vundef =>
              let fresh : JVal :=
                match rest with
                | Seg.idx _ :: _ => JVal.varr []
                | _ => JVal.vobj []
              (match jset cur seg fresh with
               | Except.error e => Except.error e
               | Except.ok cur1 =>
                  match setAtPathGo fresh rest value with
                  | Except.error e => Except.error e
                  | Except.ok sub => jset cur1 seg sub)
          | c' =>
              match setAtPathGo c' rest value with
              | Except.error e => Except.error e
              | Except.ok sub => jset cur seg sub)
  | cur, [], _ => Except.ok cur

/-- `setAtPath(obj, path, value)` (lines 69 to 79).  Result: the pair of
the (possibly mutated) `obj` and the function's return value — the code
returns `value` itself for an empty path (without touching `obj`) and
returns `obj` otherwise. -/
def setAtPath (obj : JVal) (path : List Seg) (value : JVal) :
    Except JErr (JVal × JVal) :=
  match path with
  | [] => Except.ok (obj, value)
  | _ =>
      match setAtPathGo obj path value with
      | Except.error e => Except.error e
      | Except.ok obj2 => Except.ok (obj2, obj2)

/-- The branch condition of `handleSave` (line 90):
`nodeData.text.length > 1 || (nodeData.text.length === 1 && nodeData.text[0].key)`. -/
def isObjectNode (nodeText : List NRow) : Bool :=
  decide (nodeText.length > 1) ||
    (decide (nodeText.length = 1) &&
      (match nodeText.head? with
       | some r => keyTruthy r.key
       | none => false))

/-- Line 92: `nodeData.path && nodeData.path.length > 0 ? nodeData.path : []`. -/
def targetOf (nodePath : Option (List Seg)) : List Seg :=
  match nodePath with
  | some p => if p.length > 0 then p else []
  | none => []

/-- The mutation step of `handleSave` (lines 90 to 116) on the parsed
document: the object branch merges the fields into the resolved target;
the scalar branch coerces `fields[0]` (reading it throws when `fields` is
empty) and calls `setAtPath`, whose return value the code discards — only
the mutation of `json` through the alias survives. -/
def applyEdit (json : JVal) (nodeText : List NRow) (nodePath : Option (List Seg))
    (fields : List FieldRow) : Except JErr JVal :=
  if isObjectNode nodeText then
    objectMerge json (targetOf nodePath) fields
  else
    match fields with
    | [] => Except.error JErr.typeError
    | f :: _ =>
        match setAtPath json (nodePath.getD []) (coerceField f) with
        | Except.error e => Except.error e
        | Except.ok r => Except.ok r.1

/-- Separator join, the model of `Array.prototype.join(sep)` on a list of
strings. -/
def joinSep (sep : String) : List String → String
  | [] => ""
  | [x] => x
  | x :: y :: xs => x ++ sep ++ joinSep sep (y :: xs)

/-- Plain concatenation of a list of strings. -/
def concatAll : List String → String
  | [] => ""
  | x :: xs => x ++ concatAll xs

mutual

/-- String conversion of a runtime value by a template literal (the
`${nodeRows[0].value}` on line 14): the ToString abstract operation. -/
def jsTemplate : JVal → String
  | JVal.vstr s => s
  | JVal.vnum n => toString n
  | JVal.vnan => "NaN"
  | JVal.vbool b => if b then "true" else "false"
  | JVal.vnull => "null"
  | JVal.vundef => "undefined"
  | JVal.vobj _ => "[object Object]"
  | JVal.varr l => jsTemplateArr l

/-- Array.prototype.toString: elements joined with commas. -/
def jsTemplateArr : List JVal → String
  | [] => ""
  | [x] => jsTemplateElem x
  | x :: y :: xs => jsTemplateElem x ++ "," ++ jsTemplateArr (y :: xs)

/-- Inside a joined array, `null` and `undefined` print as empty. -/
def jsTemplateElem : JVal → String
  | JVal.vnull => ""
  | JVal.vundef => ""
  | v => jsTemplate v

end

/-- JSON string quoting.  The string contents exercised by the verified
code contain no characters needing escapes; the double quote and backslash
escapes are modelled, the remaining control-character escapes are outside
the inputs exercised. -/
def jsonQuoteChar (c : Char) : String :=
  if c = '"' then "\\\""
  else if c = '\\' then "\\\\"
  else String.mk [c]

/-- JSON string literal rendering used by `JSON.stringify`. -/
def jsonQuote (s : String) : String :=
  "\"" ++ concatAll (s.toList.map jsonQuoteChar) ++ "\""

mutual

/-- `JSON.stringify(v, null, 2)` at container indentation `ind`:
`undefined` is not serializable (`none`), `NaN` serializes as `null`. -/
def stringifyVal (ind : String) : JVal → Option String
  | JVal.vnull => some "null"
  | JVal.vnan => some "null"
  | JVal.vbool b => some (if b then "true" else "false")
  | JVal.vnum n => some (toString n)
  | JVal.vstr s => some (jsonQuote s)
  | JVal.vundef => none
  | JVal.vobj l => some (stringifyObj ind l)
  | JVal.varr l => some (stringifyArr ind l)

/-- Serialize an object with two-space-indented members; members whose
value does not serialize (`undefined`) are skipped. -/
def stringifyObj (ind : String) (l : List (String × JVal)) : String :=
  match stringifyMembers (ind ++ "  ") l with
  | [] => "\x7b\x7d"
  | m :: ms =>
      "\x7b\n" ++ ind ++ "  " ++ joinSep (",\n" ++ ind ++ "  ") (m :: ms) ++
        "\n" ++ ind ++ "\x7d"

/-- The serialized `"key": value` member list of an object. -/
def stringifyMembers (ind : String) : List (String × JVal) → List String
  | [] => []
  | (k, v) :: rest =>
      match stringifyVal ind v with
      | some vs => (jsonQuote k ++ ": " ++ vs) :: stringifyMembers ind rest
      | none => stringifyMembers ind rest

/-- Serialize an array with two-space-indented items; items that do not
serialize (holes, `undefined`) print as `null`. -/
def stringifyArr (ind : String) (l : List JVal) : String :=
  match stringifyItems (ind ++ "  ") l with
  | [] => "[]"
  | m :: ms =>
      "[\n" ++ ind ++ "  " ++ joinSep (",\n" ++ ind ++ "  ") (m :: ms) ++
        "\n" ++ ind ++ "]"

/-- The serialized item list of an array. -/
def stringifyItems (ind : String) : List JVal → List String
  | [] => []
  | v :: rest => ((stringifyVal ind v).getD "null") :: stringifyItems ind rest

end

/-- Top-level `JSON.stringify(v, null, 2)`. -/
def jsonStringify (v : JVal) : Option String := stringifyVal "" v

/-- One step of the object accumulation of `normalizeNodeData`
(lines 17 to 21): rows of container type are dropped, a truthy key is
assigned its RAW row value (no coercion by the declared type). -/
def normalizeRowFold (obj : List (String × JVal)) (r : NRow) : List (String × JVal) :=
  if r.type = "array" ∨ r.type = "object" then obj
  else
    match r.key with
    | some k => if k = "" then obj else setKey obj k r.value
    | none => obj

/-- `normalizeNodeData(nodeRows)` (lines 12 to 23): empty rows print the
empty object, a single row with a falsy key prints its raw value via a
template literal, otherwise the accumulated object is pretty-printed. -/
def normalizeNodeData (nodeRows : List NRow) : String :=
  match nodeRows with
  | [] => "\x7b\x7d"
  | [r] =>
      if keyTruthy r.key then stringifyObj "" ([r].foldl normalizeRowFold [])
      else jsTemplate r.value
  | rs => stringifyObj "" (rs.foldl normalizeRowFold [])

/-- Rendering of one path segment (line 28): numbers bare, strings wrapped
in double quotes by a template literal (no escaping). -/
def segRender : Seg → String
  | Seg.idx n => toString n
  | Seg.key s => "\"" ++ s ++ "\""

/-- `jsonPathToString(path)` (lines 26 to 30): a missing or empty path
prints the root locator, otherwise the segments are rendered, joined with
back-to-back bracket pairs and wrapped once. -/
def jsonPathToString (path : Option (List Seg)) : String :=
  match path with
  | none => "$"
  | some [] => "$"
  | some (s :: rest) => "$[" ++ joinSep "][" ((s :: rest).map segRender) ++ "]"

/-- Projection of one raw row into an editable field
(lines 45 to 47 and 56 to 59): `String(r.value ?? "")` maps a nullish
value to the empty string and stringifies anything else. -/
def projectRow (r : NRow) : FieldRow :=
  FieldRow.mk r.key
    (match r.value with
     | JVal.vundef => ""
     | JVal.vnull => ""
     | v => jsTemplate v)
    r.type

/-- The row projection built by the `useEffect` (and identically by
`handleCancel`): container-typed rows are filtered out, the rest become
fields. -/
def projectRows (rows : List NRow) : List FieldRow :=
  (rows.filter (fun r => r.type ≠ "array" && r.type ≠ "object")).map projectRow

/-- The positional map of `handleChange` (lines 65 to 67):
`prev.map((f, i) => (i === index ? updated : f))`. -/
def handleChangeGo (i : Nat) (index : Nat) (value : String) :
    List FieldRow → List FieldRow
  | [] => []
  | f :: fs =>
      (if i = index then FieldRow.mk f.key value f.type else f) ::
        handleChangeGo (i + 1) index value fs

/-- `handleChange(index, value)` applied to the current fields. -/
def handleChange (fields : List FieldRow) (index : Nat) (value : String) :
    List FieldRow :=
  handleChangeGo 0 index value fields

/-- The modal's react state: the `editing` flag and the `fields` list. -/
structure ModalState where
  editing : Bool
  fields : List FieldRow
deriving DecidableEq

/-- The `useEffect` on node selection (lines 41 to 50): editing off, fields
re-projected from the node's rows. -/
def selectEffect (rows : List NRow) : ModalState :=
  ModalState.mk false (projectRows rows)

/-- `handleEdit` (line 52). -/
def handleEditS (st : ModalState) : ModalState :=
  ModalState.mk true st.fields

/-- `handleChange` as a state transition. -/
def handleChangeS (st : ModalState) (i : Nat) (v : String) : ModalState :=
  ModalState.mk st.editing (handleChange st.fields i v)

/-- `handleCancel` (lines 54 to 63): re-projects fresh fields from the
node's rows and leaves editing mode; the current fields are ignored. -/
def handleCancelS (rows : List NRow) (_st : ModalState) : ModalState :=
  ModalState.mk false (projectRows rows)

/-- A sequence of `handleChange` calls folded over the state. -/
def applyOps (st : ModalState) (ops : List (Nat × String)) : ModalState :=
  ops.foldl (fun s op => handleChangeS s op.1 op.2) st

/-- The persisted-file state owned by the `useFile` store, together with
the modal's editing flag: `getContents` reads `contents`, `setContents`
replaces it. -/
structure SaveState where
  contents : String
  editing : Bool
deriving DecidableEq

/-- The outcome surfaced by `handleSave`: the success toast, or the catch
branch carrying the caught error (logged and reported as a failure
toast). -/
inductive SaveOutcome where
  | saved
  | failed (e : JErr)
deriving DecidableEq

/-- The fallible body of `handleSave`'s `try` block (lines 85 to 119):
parse the persisted text (external `contentToJson`), apply the edit,
serialize with `JSON.stringify(json, null, 2)`, convert to the persisted
format (external `jsonToContent`). -/
def savePipeline (parseFn : String → Except JErr JVal)
    (printFn : String → Except JErr String) (contents : String)
    (nodeText : List NRow) (nodePath : Option (List Seg))
    (fields : List FieldRow) : Except JErr String :=
  match parseFn contents with
  | Except.error e => Except.error e
  | Except.ok json =>
      match applyEdit json nodeText nodePath fields with
      | Except.error e => Except.error e
      | Except.ok json2 =>
          match stringifyVal "" json2 with
          | none => Except.error JErr.stringifyUndef
          | some str => printFn str

/-- `handleSave` (lines 81 to 126): on success the persisted text is
replaced (`setContents`) and editing ends; the `catch` block leaves all
state untouched and surfaces the caught error as a failure. -/
def handleSaveRun (parseFn : String → Except JErr JVal)
    (printFn : String → Except JErr String) (st : SaveState)
    (nodeText : List NRow) (nodePath : Option (List Seg))
    (fields : List FieldRow) : SaveState × SaveOutcome :=
  match savePipeline parseFn printFn st.contents nodeText nodePath fields with
  | Except.ok contentStr => (SaveState.mk contentStr false, SaveOutcome.saved)
  | Except.error e => (st, SaveOutcome.failed e)

/-- The document of the customer scenario. -/
def custDoc : JVal :=
  JVal.vobj [("customer", JVal.vobj [("name", JVal.vstr "Ann"), ("age", JVal.vnum 30)])]

/-- The node rows of the customer scenario: the node selected at the path
of the customer object. -/
def custRows : List NRow :=
  [NRow.mk (some "name") (JVal.vstr "Ann") "string",
   NRow.mk (some "age") (JVal.vnum 30) "number"]

/-! ## Helper lemmas -/

theorem setKey_setKey (l : List (String × JVal)) (k : String) (x y : JVal) :
    setKey (setKey l k x) k y = setKey l k y := by
  induction l with
  | nil => simp [setKey]
  | cons hd tl ih =>
      obtain ⟨k', v'⟩ := hd
      by_cases h : k' = k
      · simp [setKey, h]
      · simp [setKey, h, ih]

theorem lookupKey_setKey (l : List (String × JVal)) (k : String) (v : JVal) :
    lookupKey k (setKey l k v) = some v := by
  induction l with
  | nil => simp [setKey, lookupKey]
  | cons hd tl ih =>
      obtain ⟨k', v'⟩ := hd
      by_cases h : k' = k
      · simp [setKey, h, lookupKey]
      · simp [setKey, h, lookupKey, ih]

theorem joinSep_brackets (x : String) (xs : List String) :
    "[" ++ joinSep "][" (x :: xs) ++ "]" =
      concatAll ((x :: xs).map (fun s => "[" ++ s ++ "]")) := by
  induction xs generalizing x with
  | nil => simp [joinSep, concatAll, String.append_empty]
  | cons y ys ih =>
      rw [show joinSep "][" (x :: y :: ys) = x ++ "][" ++ joinSep "][" (y :: ys) from rfl]
      rw [show (x :: y :: ys).map (fun s => "[" ++ s ++ "]") =
            ("[" ++ x ++ "]") :: (y :: ys).map (fun s => "[" ++ s ++ "]") from rfl]
      rw [show concatAll (("[" ++ x ++ "]") :: (y :: ys).map (fun s => "[" ++ s ++ "]")) =
            ("[" ++ x ++ "]") ++ concatAll ((y :: ys).map (fun s => "[" ++ s ++ "]")) from rfl]
      rw [← ih y]
      have hsplit : ∀ r : String, ("][" : String) ++ r = "]" ++ ("[" ++ r) := by
        intro r
        rw [← String.append_assoc]
        rfl
      simp [String.append_assoc, hsplit]

theorem handleChangeGo_out_of_range (fs : List FieldRow) :
    ∀ (i index : Nat) (value : String), i + fs.length ≤ index →
      handleChangeGo i index value fs = fs := by
  induction fs with
  | nil => intro i index value _; rfl
  | cons f rest ih =>
      intro i index value h
      have hne : i ≠ index := by
        simp [List.length_cons] at h
        omega
      have hrec : (i + 1) + rest.length ≤ index := by
        simp [List.length_cons] at h
        omega
      simp [handleChangeGo, hne, ih (i + 1) index value hrec]

/-! ## Claims -/

/-- Claim C2: for the document with the customer object, the node selected
at the customer path, and the age row edited to the text 31, the merge step
of commit produces the document where age is the number 31 and the sibling
name is unchanged.  The parse and print steps are the external format
converters of the specification; the theorem states the effect on the
parsed document. -/
theorem c2_customer_scenario :
    applyEdit custDoc custRows (some [Seg.key "customer"])
        (handleChange (projectRows custRows) 1 "31") =
      Except.ok (JVal.vobj [("customer",
        JVal.vobj [("name", JVal.vstr "Ann"), ("age", JVal.vnum 31)])]) := by
  simp only [projectRows, projectRow, custRows, jsTemplate, handleChange, handleChangeGo]
  rfl

/-- Claim C4, counterexample: with the document as the empty object and a
scalar node at the path a then b, both intermediate segments are missing,
yet commit succeeds and `setAtPath` silently creates the intermediate
object — there is no path error and intermediate containers are created. -/
theorem c4_counterexample :
    applyEdit (JVal.vobj []) [NRow.mk none (JVal.vnum 5) "number"]
        (some [Seg.key "a", Seg.key "b"]) [FieldRow.mk none "5" "number"] =
      Except.ok (JVal.vobj [("a", JVal.vobj [("b", JVal.vnum 5)])]) := rfl

/-- Claim C4, amended: the object branch resolves every segment (not all
but the last) with no kind checks — a missing key on an object yields
`undefined`, and only a further read through `undefined` throws a generic
`TypeError`; the scalar branch's `setAtPath` never fails on a missing
intermediate segment: it creates the missing container (an array when the
following segment is numeric, otherwise an object). -/
theorem c4_resolution_amended :
    (∀ (l : List (String × JVal)) (k1 k2 : String) (v : JVal),
        lookupKey k1 l = none →
        setAtPathGo (JVal.vobj l) [Seg.key k1, Seg.key k2] v =
          Except.ok (JVal.vobj (setKey l k1 (JVal.vobj [(k2, v)])))) ∧
    (∀ (l : List (String × JVal)) (k : String),
        lookupKey k l = none →
        resolveChain (JVal.vobj l) [Seg.key k] = Except.ok JVal.vundef) ∧
    (∀ (s : Seg) (rest : List Seg),
        resolveChain JVal.vundef (s :: rest) = Except.error JErr.typeError) := by
  refine ⟨?_, ?_, ?_⟩
  · intro l k1 k2 v h
    simp [setAtPathGo, jget, jset, h, setKey_setKey]
    rfl
  · intro l k h
    simp [resolveChain, jget, h]
  · intro s rest
    simp [resolveChain, jget]

/-- Claim C4, witness for the amended theorem at a concrete input. -/
theorem c4_resolution_amended_witness :
    setAtPathGo (JVal.vobj []) [Seg.key "a", Seg.key "b"] (JVal.vnum 5) =
      Except.ok (JVal.vobj [("a", JVal.vobj [("b", JVal.vnum 5)])]) :=
  c4_resolution_amended.1 [] "a" "b" (JVal.vnum 5) rfl

/-- Claim C6: the path formatter is total, maps a missing or empty path to
the root locator, renders each segment wrapped in brackets in order with
strings quoted and integers bare, and produces the documented example. -/
theorem c6_path_format :
    jsonPathToString none = "$" ∧
    (∀ p : List Seg, jsonPathToString (some p) =
      "$" ++ concatAll (p.map (fun s => "[" ++ segRender s ++ "]"))) ∧
    jsonPathToString (some [Seg.key "a", Seg.idx 2, Seg.key "b"]) =
      "$[\"a\"][2][\"b\"]" := by
  refine ⟨rfl, ?_, by decide⟩
  intro p
  cases p with
  | nil => simp [jsonPathToString, concatAll, String.append_empty]
  | cons s rest =>
      rw [show jsonPathToString (some (s :: rest)) =
            "$[" ++ joinSep "][" ((s :: rest).map segRender) ++ "]" from rfl]
      rw [show (s :: rest).map segRender = segRender s :: rest.map segRender from rfl]
      rw [show ("$[" : String) = "$" ++ "[" from rfl]
      rw [String.append_assoc, String.append_assoc]
      rw [← String.append_assoc "[" (joinSep "][" (segRender s :: rest.map segRender)) "]"]
      rw [joinSep_brackets (segRender s) (rest.map segRender)]
      simp [List.map_map, Function.comp_def]

/-- Claim C9: whatever sequence of field edits happens after entering edit
mode, cancel restores the state to exactly the projection of the selected
node's rows, with editing off. -/
theorem c9_cancel_restores :
    ∀ (rows : List NRow) (ops : List (Nat × String)),
      handleCancelS rows (applyOps (handleEditS (selectEffect rows)) ops) =
        selectEffect rows := by
  intro rows ops
  rfl

/-- Claim C10: for a scalar node with an empty (or missing) path,
`setAtPath` returns the new value without touching the document,
`handleSave` discards that return value, and the commit succeeds with the
parsed document unchanged — the edited scalar value is silently lost. -/
theorem c10_root_scalar_noop :
    (∀ (obj v : JVal), setAtPath obj [] v = Except.ok (obj, v)) ∧
    (∀ (json : JVal) (nodeText : List NRow) (f : FieldRow) (fs : List FieldRow),
        isObjectNode nodeText = false →
        applyEdit json nodeText none (f :: fs) = Except.ok json) ∧
    (∀ (json : JVal) (nodeText : List NRow) (f : FieldRow) (fs : List FieldRow),
        isObjectNode nodeText = false →
        applyEdit json nodeText (some []) (f :: fs) = Except.ok json) := by
  refine ⟨fun obj v => rfl, ?_, ?_⟩
  · intro json nodeText f fs h
    simp [applyEdit, h, setAtPath]
  · intro json nodeText f fs h
    simp [applyEdit, h, setAtPath]

/-- Claim C10, witness: a scalar document at the root with an edited value
7 commits successfully and the document keeps its old value 5. -/
theorem c10_root_scalar_noop_witness :
    applyEdit (JVal.vnum 5) [NRow.mk none (JVal.vnum 5) "number"] (some [])
        [FieldRow.mk none "7" "number"] = Except.ok (JVal.vnum 5) :=
  c10_root_scalar_noop.2.2 (JVal.vnum 5) [NRow.mk none (JVal.vnum 5) "number"]
    (FieldRow.mk none "7" "number") [] (by decide)

/-! ## Further evaluation helpers -/

theorem applyEdit_abc_eval :
    applyEdit custDoc custRows (some [Seg.key "customer"])
        (handleChange (projectRows custRows) 1 "abc") =
      Except.ok (JVal.vobj [("customer",
        JVal.vobj [("name", JVal.vstr "Ann"), ("age", JVal.vnan)])]) := by
  simp only [projectRows, projectRow, custRows, jsTemplate, handleChange, handleChangeGo]
  rfl

/-- Claim C1: the commit pipeline is all-or-nothing over the persisted
state: whenever any step (parse by the external converter, the edit
application including path resolution and coercion, serialization, print
by the external converter) fails, the persisted state is exactly
unchanged and a single failure outcome carrying the underlying error is
surfaced; the persisted text is replaced exactly when the whole pipeline
succeeds. -/
theorem c1_commit_all_or_nothing :
    ∀ (parseFn : String → Except JErr JVal) (printFn : String → Except JErr String)
      (st : SaveState) (nodeText : List NRow) (nodePath : Option (List Seg))
      (fields : List FieldRow),
      (∀ e : JErr,
        (handleSaveRun parseFn printFn st nodeText nodePath fields).2 =
            SaveOutcome.failed e →
          (handleSaveRun parseFn printFn st nodeText nodePath fields).1 = st ∧
            savePipeline parseFn printFn st.contents nodeText nodePath fields =
              Except.error e) ∧
      ((handleSaveRun parseFn printFn st nodeText nodePath fields).2 =
          SaveOutcome.saved →
        ∃ txt : String,
          savePipeline parseFn printFn st.contents nodeText nodePath fields =
              Except.ok txt ∧
            (handleSaveRun parseFn printFn st nodeText nodePath fields).1 =
              SaveState.mk txt false) := by
  intro parseFn printFn st nodeText nodePath fields
  constructor
  · intro e he
    cases hp : savePipeline parseFn printFn st.contents nodeText nodePath fields with
    | ok txt => simp [handleSaveRun, hp] at he
    | error e0 =>
        simp [handleSaveRun, hp] at he
        subst he
        simp [handleSaveRun, hp]
  · intro hs
    cases hp : savePipeline parseFn printFn st.contents nodeText nodePath fields with
    | ok txt => exact ⟨txt, rfl, by simp [handleSaveRun, hp]⟩
    | error e0 => simp [handleSaveRun, hp] at hs

/-- Claim C1, witness: a failing parse step leaves the persisted state
exactly as it was. -/
theorem c1_commit_all_or_nothing_witness :
    (handleSaveRun (fun _ => Except.error (JErr.fmtError "bad input"))
        (fun s => Except.ok s) (SaveState.mk "orig" true) [] none []).1 =
      SaveState.mk "orig" true :=
  ((c1_commit_all_or_nothing (fun _ => Except.error (JErr.fmtError "bad input"))
      (fun s => Except.ok s) (SaveState.mk "orig" true) [] none []).1
    (JErr.fmtError "bad input") rfl).1

/-- Claim C3, counterexample: committing the age row edited to the
non-numeric text abc does NOT fail — the merge succeeds (no coercion
error of any kind) and the parsed document is mutated: the age field
becomes `NaN`, so the document written back differs from the original. -/
theorem c3_counterexample :
    applyEdit custDoc custRows (some [Seg.key "customer"])
        (handleChange (projectRows custRows) 1 "abc") =
      Except.ok (JVal.vobj [("customer",
        JVal.vobj [("name", JVal.vstr "Ann"), ("age", JVal.vnan)])]) ∧
    JVal.vobj [("customer",
        JVal.vobj [("name", JVal.vstr "Ann"), ("age", JVal.vnan)])] ≠ custDoc := by
  refine ⟨applyEdit_abc_eval, ?_⟩
  simp [custDoc]

/-- Claim C3, amended: `Number` on non-numeric text yields `NaN` rather
than an error, the coerced `NaN` is assigned like any other value, commit
succeeds, and `JSON.stringify` serializes the stored `NaN` as `null` — so
the persisted document IS modified (age becomes null) and no coercion
error exists. -/
theorem c3_nan_coercion_amended :
    (∀ f : FieldRow, f.type = "number" → jsParseNumber f.value = none →
        coerceField f = JVal.vnan) ∧
    jsParseNumber "abc" = none ∧
    stringifyVal "" JVal.vnan = some "null" ∧
    applyEdit custDoc custRows (some [Seg.key "customer"])
        (handleChange (projectRows custRows) 1 "abc") =
      Except.ok (JVal.vobj [("customer",
        JVal.vobj [("name", JVal.vstr "Ann"), ("age", JVal.vnan)])]) := by
  refine ⟨?_, by decide, by simp [stringifyVal], applyEdit_abc_eval⟩
  intro f h1 h2
  simp [coerceField, h1, jsNumber, h2]

/-- Claim C3, witness for the amended theorem: the concrete number-typed
row holding abc coerces to `NaN`. -/
theorem c3_nan_coercion_amended_witness :
    coerceField (FieldRow.mk (some "age") "abc" "number") = JVal.vnan :=
  c3_nan_coercion_amended.1 (FieldRow.mk (some "age") "abc" "number") rfl (by decide)

/-- Claim C5, counterexample: `normalizeNodeData` stores the RAW row value
and never coerces by the declared value type, so the documented example
with textual value 1 of declared type number prints the value as a JSON
string, not as the number the claim asserts. -/
theorem c5_counterexample :
    normalizeNodeData
        [NRow.mk (some "a") (JVal.vstr "1") "number",
         NRow.mk (some "b") (JVal.vstr "x") "string"] ≠
      stringifyObj "" [("a", JVal.vnum 1), ("b", JVal.vstr "x")] ∧
    stringifyObj "" [("a", JVal.vnum 1), ("b", JVal.vstr "x")] =
      "\x7b\n  \"a\": 1,\n  \"b\": \"x\"\n\x7d" := by
  constructor
  · simp [normalizeNodeData, normalizeRowFold, keyTruthy, setKey, stringifyObj,
      stringifyMembers, stringifyVal, jsonQuote, jsonQuoteChar, joinSep, concatAll]
    decide
  · simp [stringifyObj, stringifyMembers, stringifyVal, jsonQuote, jsonQuoteChar,
      joinSep, concatAll]
    decide

/-- Claim C5, amended: empty rows print the empty object; a single
keyless row prints its raw value as text; any other row list prints the
pretty JSON object built from the keyed non-container rows in order with
their RAW values (the declared value type is not consulted), so the
documented example prints the textual value 1 as a JSON string. -/
theorem c5_normalize_amended :
    normalizeNodeData [] = "\x7b\x7d" ∧
    (∀ (v : JVal) (t : String), normalizeNodeData [NRow.mk none v t] = jsTemplate v) ∧
    normalizeNodeData [NRow.mk none (JVal.vnum 5) "number"] = "5" ∧
    normalizeNodeData
        [NRow.mk (some "a") (JVal.vstr "1") "number",
         NRow.mk (some "b") (JVal.vstr "x") "string"] =
      "\x7b\n  \"a\": \"1\",\n  \"b\": \"x\"\n\x7d" := by
  refine ⟨rfl, ?_, ?_, ?_⟩
  · intro v t
    simp [normalizeNodeData, keyTruthy]
  · simp [normalizeNodeData, keyTruthy, jsTemplate]
    decide
  · simp [normalizeNodeData, normalizeRowFold, keyTruthy, setKey, stringifyObj,
      stringifyMembers, stringifyVal, jsonQuote, jsonQuoteChar, joinSep, concatAll]

/-- Claim C7, counterexample: a row whose key is the empty string has a
non-null key, yet the merge skips it (the truthiness test on the key is
false), so its edited value is never assigned — the original value of the
empty-string field survives the commit. -/
theorem c7_counterexample :
    applyEdit (JVal.vobj [("", JVal.vstr "w"), ("b", JVal.vstr "z")])
        [NRow.mk (some "") (JVal.vstr "w") "string",
         NRow.mk (some "b") (JVal.vstr "z") "string"] (some [])
        [FieldRow.mk (some "") "x" "string", FieldRow.mk (some "b") "y" "string"] =
      Except.ok (JVal.vobj [("", JVal.vstr "w"), ("b", JVal.vstr "y")]) := rfl

/-- Claim C7, amended: every row with a present, non-empty key is coerced
per its declared value type (number by the numeric parse with `NaN` for
unparseable text, boolean by comparison with the literal true, null to
null, anything else the raw string) and assigned into the target
container; rows with an absent or empty-string key are skipped. -/
theorem c7_merge_coercion_amended :
    (∀ (k : Option String) (v : String),
        coerceField (FieldRow.mk k v "number") = jsNumber v) ∧
    (∀ (k : Option String) (v : String),
        coerceField (FieldRow.mk k v "boolean") = JVal.vbool (v == "true")) ∧
    (∀ (k : Option String) (v : String),
        coerceField (FieldRow.mk k v "null") = JVal.vnull) ∧
    (∀ (k : Option String) (v t : String),
        t ≠ "number" → t ≠ "boolean" → t ≠ "null" →
        coerceField (FieldRow.mk k v t) = JVal.vstr v) ∧
    (∀ (l : List (String × JVal)) (f : FieldRow) (k : String),
        f.key = some k → k ≠ "" →
        lookupKey k (mergeFields l [f]) = some (coerceField f)) := by
  refine ⟨?_, ?_, ?_, ?_, ?_⟩
  · intro k v; simp [coerceField]
  · intro k v; simp [coerceField]
  · intro k v; simp [coerceField]
  · intro k v t h1 h2 h3; simp [coerceField, h1, h2, h3]
  · intro l f k hk hne
    simp [mergeFields, fieldAssign, hk, hne, lookupKey_setKey]

/-- Claim C7, witness for the amended theorem at a concrete merge. -/
theorem c7_merge_coercion_amended_witness :
    lookupKey "age" (mergeFields [] [FieldRow.mk (some "age") "31" "number"]) =
      some (coerceField (FieldRow.mk (some "age") "31" "number")) :=
  c7_merge_coercion_amended.2.2.2.2 [] (FieldRow.mk (some "age") "31" "number")
    "age" rfl (by decide)

/-- Claim C8, counterexample: an out-of-range `handleChange` raises no
error and leaves the row list unchanged, and the subsequent commit does
not leave the persisted text unchanged: it succeeds and REPLACES the
persisted text with the output of the print step. -/
theorem c8_counterexample :
    handleChange (projectRows [NRow.mk (some "customer")
        (JVal.vobj [("name", JVal.vstr "Ann"), ("age", JVal.vnum 30)]) "object"]) 5 "x" =
      projectRows [NRow.mk (some "customer")
        (JVal.vobj [("name", JVal.vstr "Ann"), ("age", JVal.vnum 30)]) "object"] ∧
    (handleSaveRun (fun _ => Except.ok custDoc) (fun _ => Except.ok "printed")
        (SaveState.mk "orig" true)
        [NRow.mk (some "customer")
          (JVal.vobj [("name", JVal.vstr "Ann"), ("age", JVal.vnum 30)]) "object"]
        (some [])
        (handleChange (projectRows [NRow.mk (some "customer")
          (JVal.vobj [("name", JVal.vstr "Ann"), ("age", JVal.vnum 30)]) "object"]) 5 "x")).1 =
      SaveState.mk "printed" false ∧
    ("printed" : String) ≠ "orig" := by
  refine ⟨rfl, ?_, by decide⟩
  have h1 : applyEdit custDoc
      [NRow.mk (some "customer")
        (JVal.vobj [("name", JVal.vstr "Ann"), ("age", JVal.vnum 30)]) "object"]
      (some [])
      (handleChange (projectRows [NRow.mk (some "customer")
        (JVal.vobj [("name", JVal.vstr "Ann"), ("age", JVal.vnum 30)]) "object"]) 5 "x") =
      Except.ok custDoc := rfl
  have h2 : stringifyVal "" custDoc =
      some (stringifyObj "" [("customer",
        JVal.vobj [("name", JVal.vstr "Ann"), ("age", JVal.vnum 30)])]) := by
    simp [custDoc, stringifyVal]
  simp only [handleSaveRun, savePipeline, h1, h2]

/-- Claim C8, amended: an out-of-range index makes `handleChange` a silent
no-op — the row list is returned unchanged and no error of any kind is
raised. -/
theorem c8_out_of_range_amended :
    ∀ (fields : List FieldRow) (index : Nat) (value : String),
      fields.length ≤ index → handleChange fields index value = fields := by
  intro fields index value h
  exact handleChangeGo_out_of_range fields 0 index value (by omega)

/-- Claim C8, witness for the amended theorem at a concrete out-of-range
index. -/
theorem c8_out_of_range_amended_witness :
    handleChange [FieldRow.mk (some "k") "v" "string"] 3 "z" =
      [FieldRow.mk (some "k") "v" "string"] :=
  c8_out_of_range_amended [FieldRow.mk (some "k") "v" "string"] 3 "z" (by decide)
